import Mathlib

/-
  Verification of the finite-difference wave-equation core of the
  DD2356 repository (Project/serial, Project/openMp, Project/mpi and
  Project/unitTests).  Fields are embedded as total functions from a
  pair of indices to a real value; the boolean obstacle mask likewise.
  Each imperative pass of the C++ sources writes to a set of cells a
  value that depends only on the loop indices and on read-only inputs,
  so a pass is embedded as a pointwise function of the old array.
-/

namespace WaveSim

/-- A two-dimensional field of wave amplitudes, one time layer. -/
abbrev Field : Type := ℕ → ℕ → ℝ

/-- The boolean obstacle mask. -/
abbrev Mask : Type := ℕ → ℕ → Bool

/-- Grid edge length N = 256, a constant in every variant of the program. -/
def gridN : ℕ := 256

/-- Physical domain size boxsize = 1.0. -/
def boxsize : ℝ := 1

/-- Propagation speed c = 1.0. -/
def cSpeed : ℝ := 1

/-- Simulation end time tEnd = 2.0. -/
def tEndC : ℝ := 2

/-- Grid spacing dx = boxsize / N (serial main.cpp line 106). -/
noncomputable def dxOf (N : ℕ) : ℝ := boxsize / N

/-- Time step dt = (sqrt 2 / 2) * dx / c (serial main.cpp line 107,
mpi main.cpp line 104). -/
noncomputable def dtOf (dx cv : ℝ) : ℝ := (Real.sqrt 2 / 2) * dx / cv

/-- Stencil factor fac = dt*dt*c*c/(dx*dx) (serial main.cpp line 108). -/
noncomputable def facOf (dtv cv dx : ℝ) : ℝ := dtv * dtv * cv * cv / (dx * dx)

/-- Spatial coordinates xlin[i] = 0.5*dx + i*dx (serial main.cpp lines 32-34). -/
noncomputable def xlin (N : ℕ) (i : ℕ) : ℝ := 0.5 * dxOf N + i * dxOf N

/-- First loop of initializeGrid (serial main.cpp lines 36-41): mark the
four outer edge lines of the mask.  Cell (a,b) is written iff some loop
index i produces it, i.e. iff it lies on row 0, row N-1, column 0 or
column N-1 with the other index below N. -/
def edgePass (N : ℕ) (mask : Mask) : Mask := fun a b =>
  if (a = 0 ∧ b < N) ∨ (a = N - 1 ∧ b < N) ∨ (b = 0 ∧ a < N) ∨ (b = N - 1 ∧ a < N)
  then true else mask a b

/-- Second loop of initializeGrid (serial main.cpp lines 43-47): the solid
interior barrier, rows [N/4, 9N/32) across columns [0, N-1). -/
def barrierPass (N : ℕ) (mask : Mask) : Mask := fun a b =>
  if N / 4 ≤ a ∧ a < 9 * N / 32 ∧ b < N - 1 then true else mask a b

/-- Third loop of initializeGrid (serial main.cpp lines 49-56): for rows
[1, N-1), the two slit column ranges are forced back to false. -/
def slitPass (N : ℕ) (mask : Mask) : Mask := fun a b =>
  if (1 ≤ a ∧ a < N - 1) ∧
     ((5 * N / 16 ≤ b ∧ b < 3 * N / 8) ∨ (5 * N / 8 ≤ b ∧ b < 11 * N / 16))
  then false else mask a b

/-- The mask produced by initializeGrid of the serial, openMP, SFML and
unit-test sources, starting from the all-false allocation of main
(serial main.cpp line 112) and running the three passes in program order. -/
def initializeGridMask (N : ℕ) : Mask :=
  slitPass N (barrierPass N (edgePass N (fun _ _ => false)))

/-- updateLaplacian of serial main.cpp lines 89-102 and unitTests
simulation.cpp lines 61-74: for interior non-masked cells write
2*U - U + fac*(U[i-1][j] + U[i+1][j] + U[i][j-1] + U[i][j+1] - 4*U[i][j])
into Unew; every other cell of Unew keeps its prior value. -/
def updateLaplacian (N : ℕ) (U Unew : Field) (mask : Mask) (fac : ℝ) : Field := fun i j =>
  if 1 ≤ i ∧ i < N - 1 ∧ 1 ≤ j ∧ j < N - 1 ∧ mask i j = false then
    2 * U i j - U i j +
      fac * (U (i - 1) j + U (i + 1) j + U i (j - 1) + U i (j + 1) - 4 * U i j)
  else Unew i j

/-- calculateLaplacian of mpi main.cpp lines 52-66: local rows
[1, local_N-1), columns [1, N-1), non-masked cells get
2*U - Uprev + fac*(U[i][j-1] + U[i][j+1] + U[i-1][j] + U[i+1][j] - 4*U[i][j]). -/
def calculateLaplacian (N : ℕ) (U Uprev : Field) (mask : Mask) (Unew : Field)
    (fac : ℝ) (localN : ℕ) : Field := fun i j =>
  if 1 ≤ i ∧ i < localN - 1 ∧ 1 ≤ j ∧ j < N - 1 ∧ mask i j = false then
    2 * U i j - Uprev i j +
      fac * (U i (j - 1) + U i (j + 1) + U (i - 1) j + U (i + 1) j - 4 * U i j)
  else Unew i j

/-- The guard of the first loop of applyBoundaryConditions
(serial main.cpp line 70). -/
def bcMaskCond (N : ℕ) (mask : Mask) (i : ℕ) : Bool :=
  mask i 0 || mask i (N - 1) || mask 0 i || mask (N - 1) i

/-- First loop of applyBoundaryConditions (serial main.cpp lines 69-73):
for every i < N whose guard holds, U[i][0], U[i][N-1], U[0][i], U[N-1][i]
are set to 0.  All written values are 0, so the result is pointwise. -/
def bcZeroPass (N : ℕ) (mask : Mask) (U : Field) : Field := fun a b =>
  if ((b = 0 ∨ b = N - 1) ∧ a < N ∧ bcMaskCond N mask a = true) ∨
     ((a = 0 ∨ a = N - 1) ∧ b < N ∧ bcMaskCond N mask b = true)
  then 0 else U a b

/-- Second loop of applyBoundaryConditions (serial main.cpp lines 75-77):
row 0 receives the time-dependent source term. -/
noncomputable def sourcePass (N : ℕ) (t : ℝ) (xl : ℕ → ℝ) (U : Field) : Field := fun a b =>
  if a = 0 ∧ b < N then
    Real.sin (20 * Real.pi * t) * (Real.sin (Real.pi * xl b)) ^ 2
  else U a b

/-- applyBoundaryConditions of serial main.cpp lines 68-78 and unitTests
simulation.cpp lines 49-59: zero pass then source pass, in program order. -/
noncomputable def applyBoundaryConditions (N : ℕ) (mask : Mask) (t : ℝ) (xl : ℕ → ℝ) (U : Field) : Field :=
  sourcePass N t xl (bcZeroPass N mask U)

/-- initializeGrid of mpi main.cpp lines 29-40: the local mask only gets
columns 0 and N-1 of the local_N owned rows; the barrier, the slits and
the top and bottom edge rows of the global grid are never marked. -/
def initializeGridMaskMpi (N localN : ℕ) : Mask := fun i j =>
  if i < localN ∧ (j = 0 ∨ j = N - 1) then true else false

/-- applyBoundaryConditions of mpi main.cpp lines 77-85: first loop zeroes
columns 0 and N-1 of the local rows, second loop overwrites column 0 of
the local rows with the source term indexed by the local row number. -/
noncomputable def applyBoundaryConditionsMpi (N localN : ℕ) (t : ℝ) (xl : ℕ → ℝ) (U : Field) : Field :=
  fun a b =>
  if b = 0 ∧ a < localN then
    Real.sin (20 * Real.pi * t) * (Real.sin (Real.pi * xl a)) ^ 2
  else if (b = 0 ∨ b = N - 1) ∧ a < localN then 0
  else U a b

/-- Rows per worker, local_N = N / size (mpi main.cpp line 98): integer
division, computed with no divisibility check and no error path. -/
def localRows (N size : ℕ) : ℕ := N / size

/-- end_row = (rank + 1) * local_N (mpi main.cpp line 100). -/
def endRow (N size rank : ℕ) : ℕ := (rank + 1) * localRows N size

/-- The global mask obtained by giving every worker its mpi local mask and
reading global row g from the owning worker at local row g % local_N. -/
def assembledMask (N size : ℕ) : Mask := fun g j =>
  initializeGridMaskMpi N (localRows N size) (g % localRows N size) j

/-- The per-iteration state of one MPI rank: the three field buffers and
the simulation time (mpi main.cpp lines 108-115). -/
structure WorkerState where
  U : Field
  Uprev : Field
  Unew : Field
  t : ℝ

/-- One iteration of the mpi main loop (mpi main.cpp lines 117-128):
calculateLaplacian, roll buffers, apply boundary conditions at the
current time, advance time.  The loop body of mpi main.cpp contains no
send, receive or any other communication call, so the step is a pure
function of the local state of the one rank. -/
noncomputable def workerStep (N localN : ℕ) (mask : Mask) (fac dtv : ℝ) (xl : ℕ → ℝ)
    (s : WorkerState) : WorkerState :=
  let Unew1 := calculateLaplacian N s.U s.Uprev mask s.Unew fac localN
  { U := applyBoundaryConditionsMpi N localN s.t xl Unew1
    Uprev := s.U
    Unew := Unew1
    t := s.t + dtv }

/-- A two-rank deployment of the mpi program: the pair of rank states. -/
structure TwoWorkerSystem where
  w0 : WorkerState
  w1 : WorkerState

/-- One global time step of the two-rank mpi deployment: each rank runs
its loop body independently (the mpi source performs no halo exchange,
so no data moves between the ranks). -/
noncomputable def twoWorkerStep (N localN : ℕ) (mask : Mask) (fac dtv : ℝ) (xl : ℕ → ℝ)
    (s : TwoWorkerSystem) : TwoWorkerSystem :=
  { w0 := workerStep N localN mask fac dtv xl s.w0
    w1 := workerStep N localN mask fac dtv xl s.w1 }

/-- The all-zero field. -/
def zeroF : Field := fun _ _ => 0

/-- A field holding a single impulse of amplitude a at cell (i0, j0). -/
def impulse (i0 j0 : ℕ) (a : ℝ) : Field := fun i j =>
  if i = i0 ∧ j = j0 then a else 0

/-- Manhattan distance between grid cells, written with truncated
natural subtraction. -/
def manhattan (i j i0 j0 : ℕ) : ℕ := (i - i0) + (i0 - i) + (j - j0) + (j0 - j)

/-- The simulation time after k iterations of the driver loop, which
starts at t = 0 and performs t += dt once per iteration
(serial main.cpp lines 119-131). -/
def tAt (dtv : ℝ) : ℕ → ℝ
  | 0 => 0
  | k + 1 => tAt dtv k + dtv

/-- The dt computed by the serial driver for its constants
(serial main.cpp lines 106-107). -/
noncomputable def dtMain : ℝ := dtOf (dxOf gridN) cSpeed

/-- Modelled from the spec: a two-layer stencil scheme that reads no
previous field, writing U + fac * laplacian at every interior non-masked
cell; used to compare updateLaplacian against the claim wording. -/
def twoLayerUpdate (N : ℕ) (U Unew : Field) (mask : Mask) (fac : ℝ) : Field := fun i j =>
  if 1 ≤ i ∧ i < N - 1 ∧ 1 ≤ j ∧ j < N - 1 ∧ mask i j = false then
    U i j +
      fac * (U (i - 1) j + U (i + 1) j + U i (j - 1) + U i (j + 1) - 4 * U i j)
  else Unew i j

/-- A two-rank global state for the N = 8 halo scenario: rank 0 holds the
zero field, rank 1 holds the value 7 at local row 0, column 3 (its first
owned row, global row 4). -/
def haloSysA : TwoWorkerSystem :=
  { w0 := { U := zeroF, Uprev := zeroF, Unew := zeroF, t := 0 }
    w1 := { U := impulse 0 3 7, Uprev := zeroF, Unew := zeroF, t := 0 } }

/-- The same two-rank state except that rank 1 holds the zero field. -/
def haloSysB : TwoWorkerSystem :=
  { w0 := haloSysA.w0
    w1 := { U := zeroF, Uprev := zeroF, Unew := zeroF, t := 0 } }

/-- The all-ones field. -/
def onesF : Field := fun _ _ => 1

/-- The all-false mask. -/
def maskFree : Mask := fun _ _ => false

/- Helper lemmas shared by the claim theorems. -/

/-- Row 0 of the built mask is entirely wall, for every N. -/
theorem builtMask_row_zero (N b : ℕ) (hb : b < N) : initializeGridMask N 0 b = true := by
  unfold initializeGridMask slitPass barrierPass edgePass
  split_ifs <;> first | rfl | (exfalso; omega)

/-- The guard of the first boundary-condition loop holds at every row of
the built mask, since row 0 is entirely wall. -/
theorem bcCond_built (N i : ℕ) (hi : i < N) :
    bcMaskCond N (initializeGridMask N) i = true := by
  have h0 : initializeGridMask N 0 i = true := builtMask_row_zero N i hi
  simp [bcMaskCond, h0]

/-- The driver time after k iterations is k * dt. -/
theorem tAt_eq (dtv : ℝ) (k : ℕ) : tAt dtv k = k * dtv := by
  induction k with
  | zero => simp [tAt]
  | succ n ih =>
    simp only [tAt, ih]
    push_cast
    ring

/-- An impulse field reads 0 at every cell other than its center. -/
theorem impulse_off_center (i0 j0 : ℕ) (a : ℝ) (p q : ℕ) (h : ¬ (p = i0 ∧ q = j0)) :
    impulse i0 j0 a p q = 0 := by
  simp only [impulse]
  exact if_neg h

/-- An impulse field reads its amplitude at its center. -/
theorem impulse_center (i0 j0 : ℕ) (a : ℝ) : impulse i0 j0 a i0 j0 = a := by
  simp [impulse]

/-- C10: the serial and unit-test updateLaplacian is pointwise equal, on
every input, to a two-layer scheme that reads no previous field: the
value 2*U[i][j] - U[i][j] + fac*lap it writes collapses to
U[i][j] + fac*lap, so the previous time layer is irrelevant to it. -/
theorem updateLaplacian_eq_twoLayer (N : ℕ) (U Unew : Field) (mask : Mask) (fac : ℝ) :
    updateLaplacian N U Unew mask fac = twoLayerUpdate N U Unew mask fac := by
  funext i j
  unfold updateLaplacian twoLayerUpdate
  split_ifs with h
  · ring
  · rfl

/-- C5: the time step dt = (sqrt 2 / 2) * dx / c chosen by the core
satisfies the CFL bound c * dt / dx <= 1 / sqrt 2, with equality, for
every positive dx and c. -/
theorem cflBound (dx cv : ℝ) (hdx : 0 < dx) (hc : 0 < cv) :
    cv * dtOf dx cv / dx ≤ 1 / Real.sqrt 2 := by
  have hs : (0:ℝ) < Real.sqrt 2 := Real.sqrt_pos.mpr (by norm_num)
  have key : cv * dtOf dx cv / dx = Real.sqrt 2 / 2 := by
    unfold dtOf
    field_simp
    ring
  rw [key]
  have h2 : Real.sqrt 2 * Real.sqrt 2 = 2 := Real.mul_self_sqrt (by norm_num)
  rw [div_le_div_iff₀ (by norm_num) hs]
  nlinarith [h2]

/-- Witness for cflBound at the program constants dx = 1/256, c = 1. -/
theorem cflBound_witness :
    (0:ℝ) < 1 / 256 ∧ (0:ℝ) < 1 ∧ 1 * dtOf (1 / 256) 1 / (1 / 256) ≤ 1 / Real.sqrt 2 :=
  ⟨by norm_num, by norm_num, cflBound (1 / 256) 1 (by norm_num) (by norm_num)⟩

/-- C9: the mpi program computes local_N = N / size by integer division
with no divisibility check and no error path: at N = 256 with 3 workers
the last worker ends at row 255, so one grid row is silently dropped and
the run proceeds anyway. -/
theorem mpiSilentTruncation :
    localRows 256 3 = 85 ∧ endRow 256 3 2 = 255 ∧ endRow 256 3 2 ≠ 256 := by
  refine ⟨rfl, rfl, ?_⟩
  decide

/-- C4: partitioning changes which global cells are walls: at N = 256
with 2 workers, the single-block mask marks the barrier cell (64, 5) as
wall, but the assembled per-worker mask of the mpi initializeGrid leaves
it non-wall, because the mpi variant only marks columns 0 and N-1. -/
theorem maskPartitionDiffers :
    initializeGridMask 256 64 5 = true ∧ assembledMask 256 2 64 5 = false := by
  decide

/-- C3 counterexample: the claim requires a wall at every cell with row
in [N/4, 9N/32) and column in [0, N-1); at N = 256 the cell (64, 80)
lies in that band yet the built mask leaves it non-wall, because the
slit pass runs after the barrier pass and carves columns [80, 96) back
out of rows [1, 255). -/
theorem maskClaimCounterexample :
    ¬ (∀ i j : ℕ, 256 / 4 ≤ i → i < 9 * 256 / 32 → j < 256 - 1 →
        initializeGridMask 256 i j = true) := by
  intro h
  exact absurd (h 64 80 (by norm_num) (by norm_num) (by norm_num)) (by decide)

/-- C3 amended: for every N >= 4, after the mask build every cell on the
four outer edge lines is wall; every cell of the barrier band
[N/4, 9N/32) x [0, N-1) whose column is outside the two slit ranges is
wall; and for rows in [1, N-1) every cell in a slit column range is
non-wall. -/
theorem maskBuilt (N : ℕ) (hN : 4 ≤ N) :
    (∀ i, i < N →
      initializeGridMask N 0 i = true ∧ initializeGridMask N (N - 1) i = true ∧
      initializeGridMask N i 0 = true ∧ initializeGridMask N i (N - 1) = true) ∧
    (∀ i j, N / 4 ≤ i → i < 9 * N / 32 → j < N - 1 →
      ¬ ((5 * N / 16 ≤ j ∧ j < 3 * N / 8) ∨ (5 * N / 8 ≤ j ∧ j < 11 * N / 16)) →
      initializeGridMask N i j = true) ∧
    (∀ i j, 1 ≤ i → i < N - 1 →
      ((5 * N / 16 ≤ j ∧ j < 3 * N / 8) ∨ (5 * N / 8 ≤ j ∧ j < 11 * N / 16)) →
      initializeGridMask N i j = false) := by
  refine ⟨?_, ?_, ?_⟩
  · intro i hi
    refine ⟨?_, ?_, ?_, ?_⟩ <;>
      (unfold initializeGridMask slitPass barrierPass edgePass
       split_ifs <;> first | rfl | (exfalso; omega))
  · intro i j h1 h2 h3 h4
    unfold initializeGridMask slitPass barrierPass edgePass
    split_ifs <;> first | rfl | (exfalso; omega)
  · intro i j h1 h2 h3
    unfold initializeGridMask slitPass barrierPass edgePass
    split_ifs <;> first | rfl | (exfalso; omega)

/-- Witness for maskBuilt at N = 32: the edge cell (0, 7) and the
barrier cell (8, 2) are wall, the slit cell (5, 10) is non-wall. -/
theorem maskBuilt_witness :
    4 ≤ 32 ∧ initializeGridMask 32 0 7 = true ∧
      initializeGridMask 32 8 2 = true ∧ initializeGridMask 32 5 10 = false :=
  ⟨by norm_num,
   ((maskBuilt 32 (by norm_num)).1 7 (by norm_num)).1,
   (maskBuilt 32 (by norm_num)).2.1 8 2 (by norm_num) (by norm_num) (by norm_num) (by decide),
   (maskBuilt 32 (by norm_num)).2.2 5 10 (by norm_num) (by norm_num) (by decide)⟩

/-- C2: the mpi main loop performs no halo exchange: in the 2-worker
N = 8 deployment, two global states that agree on the rank 0 buffers but
differ in the first owned row of rank 1 (value 7 versus 0 at column 3)
produce identical rank 0 states after a full time step, so no data of
rank 1 ever reaches rank 0, and the local buffers hold no ghost rows for
it to arrive in; the claimed post-exchange equality of ghost and owned
rows has no code establishing it. -/
theorem mpiNoHaloExchange :
    haloSysA.w1.U 0 3 ≠ haloSysB.w1.U 0 3 ∧
    (twoWorkerStep 8 (localRows 8 2) (initializeGridMaskMpi 8 (localRows 8 2))
        (facOf (dtOf (dxOf 8) cSpeed) cSpeed (dxOf 8)) (dtOf (dxOf 8) cSpeed) (xlin 8)
        haloSysA).w0 =
      (twoWorkerStep 8 (localRows 8 2) (initializeGridMaskMpi 8 (localRows 8 2))
        (facOf (dtOf (dxOf 8) cSpeed) cSpeed (dxOf 8)) (dtOf (dxOf 8) cSpeed) (xlin 8)
        haloSysB).w0 := by
  constructor
  · norm_num [haloSysA, haloSysB, impulse, zeroF]
  · rfl

/-- C1 counterexample: the serial and unit-test updateLaplacian takes no
previous layer and writes 2*U - U + fac*lap; with the current field all
ones, the driver previous layer all zeros, an all-false mask and
fac = 1, it writes 1 at the interior cell (1,1) of a 4x4 grid while the
claimed leapfrog formula 2*current - previous + fac*lap gives 2. -/
theorem stencilClaimCounterexample :
    ¬ (∀ (U Uprev Unew : Field) (mask : Mask) (fac : ℝ) (i j : ℕ),
        1 ≤ i → i < 4 - 1 → 1 ≤ j → j < 4 - 1 → mask i j = false →
        updateLaplacian 4 U Unew mask fac i j =
          2 * U i j - Uprev i j +
            fac * (U (i - 1) j + U (i + 1) j + U i (j - 1) + U i (j + 1) - 4 * U i j)) := by
  intro h
  have h1 := h onesF zeroF zeroF maskFree 1 1 1
    (by norm_num) (by norm_num) (by norm_num) (by norm_num) rfl
  norm_num [updateLaplacian, onesF, zeroF, maskFree] at h1

/-- C1 amended: the mpi calculateLaplacian writes the three-layer
leapfrog value 2*current - previous + fac*lap at every interior
non-masked cell of its local band; the serial and unit-test
updateLaplacian writes 2*current - current + fac*lap, reading no
previous layer; and both leave every masked cell untouched. -/
theorem stencilFormulas (N localN : ℕ) (U Uprev Unew : Field) (mask : Mask)
    (fac : ℝ) (i j : ℕ) :
    (1 ≤ i → i < localN - 1 → 1 ≤ j → j < N - 1 → mask i j = false →
      calculateLaplacian N U Uprev mask Unew fac localN i j =
        2 * U i j - Uprev i j +
          fac * (U (i - 1) j + U (i + 1) j + U i (j - 1) + U i (j + 1) - 4 * U i j)) ∧
    (1 ≤ i → i < N - 1 → 1 ≤ j → j < N - 1 → mask i j = false →
      updateLaplacian N U Unew mask fac i j =
        2 * U i j - U i j +
          fac * (U (i - 1) j + U (i + 1) j + U i (j - 1) + U i (j + 1) - 4 * U i j)) ∧
    (mask i j = true →
      calculateLaplacian N U Uprev mask Unew fac localN i j = Unew i j ∧
      updateLaplacian N U Unew mask fac i j = Unew i j) := by
  refine ⟨?_, ?_, ?_⟩
  · intro h1 h2 h3 h4 h5
    unfold calculateLaplacian
    rw [if_pos ⟨h1, h2, h3, h4, h5⟩]
    ring
  · intro h1 h2 h3 h4 h5
    unfold updateLaplacian
    rw [if_pos ⟨h1, h2, h3, h4, h5⟩]
  · intro hm
    constructor <;> simp [calculateLaplacian, updateLaplacian, hm]

/-- Witness for stencilFormulas: N = localN = 4, current all ones,
previous all zeros, all-false mask, fac = 1, cell (1,1): the mpi
formula yields 2 there. -/
theorem stencilFormulas_witness :
    1 ≤ (1:ℕ) ∧ (1:ℕ) < 4 - 1 ∧ maskFree 1 1 = false ∧
    calculateLaplacian 4 onesF zeroF maskFree zeroF 1 4 1 1 = 2 := by
  refine ⟨by norm_num, by norm_num, rfl, ?_⟩
  have h := (stencilFormulas 4 4 onesF zeroF zeroF maskFree 1 1 1).1
    (by norm_num) (by norm_num) (by norm_num) (by norm_num) rfl
  rw [h]
  norm_num [onesF, zeroF]

/-- C6 counterexample: the source loop runs after the zero loop, so at
t = 1/40 the corner (0,0) of the full N = 256 grid holds
sin(pi/2) * sin(pi * xlin[0])^2 = sin(pi/512)^2 > 0, refuting the
claimed U[i][0] = 0 for every i at i = 0. -/
theorem bcClaimCounterexample :
    ¬ (∀ (U : Field) (t : ℝ) (i : ℕ), i < 256 →
        applyBoundaryConditions 256 (initializeGridMask 256) t (xlin 256) U i 0 = 0 ∧
        applyBoundaryConditions 256 (initializeGridMask 256) t (xlin 256) U i (256 - 1) = 0 ∧
        applyBoundaryConditions 256 (initializeGridMask 256) t (xlin 256) U (256 - 1) i = 0 ∧
        applyBoundaryConditions 256 (initializeGridMask 256) t (xlin 256) U 0 i =
          Real.sin (20 * Real.pi * t) * (Real.sin (Real.pi * xlin 256 i)) ^ 2) := by
  intro h
  have h1 := (h zeroF (1 / 40) 0 (by norm_num)).1
  unfold applyBoundaryConditions sourcePass at h1
  rw [if_pos ⟨rfl, by norm_num⟩] at h1
  have hx : xlin 256 0 = 1 / 512 := by
    unfold xlin dxOf boxsize
    push_cast
    norm_num
  have h20 : (20 : ℝ) * Real.pi * (1 / 40) = Real.pi / 2 := by ring
  rw [hx, h20, Real.sin_pi_div_two, one_mul] at h1
  have hpos : 0 < Real.sin (Real.pi * (1 / 512)) := by
    apply Real.sin_pos_of_pos_of_lt_pi
    · positivity
    · nlinarith [Real.pi_pos]
  have h2 := pow_pos hpos 2
  rw [h1] at h2
  exact lt_irrefl 0 h2

/-- C6 amended: after applyBoundaryConditions on the full grid with the
built mask, U[i][0] = U[i][N-1] = 0 for every i >= 1, U[N-1][i] = 0 for
every i, and U[0][i] = sin(20 pi t) * sin(pi xlin[i])^2 for every
i < N; the two corners of row 0 carry the source value, not 0, because
the source loop runs last. -/
theorem bcApplied (N : ℕ) (hN : 2 ≤ N) (t : ℝ) (xl : ℕ → ℝ) (U : Field) :
    (∀ i, 1 ≤ i → i < N →
      applyBoundaryConditions N (initializeGridMask N) t xl U i 0 = 0 ∧
      applyBoundaryConditions N (initializeGridMask N) t xl U i (N - 1) = 0) ∧
    (∀ i, i < N →
      applyBoundaryConditions N (initializeGridMask N) t xl U (N - 1) i = 0) ∧
    (∀ i, i < N →
      applyBoundaryConditions N (initializeGridMask N) t xl U 0 i =
        Real.sin (20 * Real.pi * t) * (Real.sin (Real.pi * xl i)) ^ 2) := by
  refine ⟨?_, ?_, ?_⟩
  · intro i h1 h2
    constructor
    · unfold applyBoundaryConditions sourcePass bcZeroPass
      rw [if_neg (by omega : ¬ (i = 0 ∧ 0 < N))]
      rw [if_pos (Or.inl ⟨Or.inl rfl, h2, bcCond_built N i h2⟩)]
    · unfold applyBoundaryConditions sourcePass bcZeroPass
      rw [if_neg (by omega : ¬ (i = 0 ∧ N - 1 < N))]
      rw [if_pos (Or.inl ⟨Or.inr rfl, h2, bcCond_built N i h2⟩)]
  · intro i hi
    unfold applyBoundaryConditions sourcePass bcZeroPass
    rw [if_neg (by omega : ¬ (N - 1 = 0 ∧ i < N))]
    rw [if_pos (Or.inr ⟨Or.inr rfl, hi, bcCond_built N i hi⟩)]
  · intro i hi
    unfold applyBoundaryConditions sourcePass
    rw [if_pos ⟨rfl, hi⟩]

/-- Witness for bcApplied: N = 256, t = 0, zero field, cell (255, 5) of
the bottom edge row evaluates to 0. -/
theorem bcApplied_witness :
    2 ≤ 256 ∧
    applyBoundaryConditions 256 (initializeGridMask 256) 0 (xlin 256) zeroF (256 - 1) 5 = 0 :=
  ⟨by norm_num, (bcApplied 256 (by norm_num) 0 (xlin 256) zeroF).2.1 5 (by norm_num)⟩

/-- C7: with the program constants N = 256, boxsize = 1, c = 1,
tEnd = 2, the driver loop terminates after exactly 725 iterations,
which equals ceil(tEnd/dt): the guard t < tEnd holds at the start of
each of the 725 iterations and fails after the last one, at which point
the final time satisfies tEnd <= t. -/
theorem driverLoopSteps :
    (∀ k, k < 725 → tAt dtMain k < tEndC) ∧
    ¬ (tAt dtMain 725 < tEndC) ∧
    ⌈tEndC / dtMain⌉ = (725 : ℤ) ∧
    tEndC ≤ tAt dtMain 725 := by
  have hdt : dtMain = Real.sqrt 2 / 512 := by
    unfold dtMain dtOf dxOf boxsize cSpeed gridN
    push_cast
    ring
  have hend : tEndC = 2 := rfl
  have hub : Real.sqrt 2 < 256 / 181 := (Real.sqrt_lt' (by norm_num)).mpr (by norm_num)
  have hlb : (181 : ℝ) / 128 < Real.sqrt 2 := (Real.lt_sqrt (by norm_num)).mpr (by norm_num)
  have hs0 : (0:ℝ) ≤ Real.sqrt 2 := Real.sqrt_nonneg 2
  have hfinal : (2:ℝ) ≤ 725 * (Real.sqrt 2 / 512) := by linarith
  refine ⟨?_, ?_, ?_, ?_⟩
  · intro k hk
    rw [tAt_eq, hdt, hend]
    have hk3 : k ≤ 724 := by omega
    have hk2 : (k : ℝ) ≤ 724 := by exact_mod_cast hk3
    nlinarith [hub, hk2, hs0]
  · rw [tAt_eq, hdt, hend]
    push_cast
    exact not_lt.mpr hfinal
  · rw [hend, hdt]
    have hne : Real.sqrt 2 ≠ 0 := by positivity
    have hsq : Real.sqrt 2 * Real.sqrt 2 = 2 := Real.mul_self_sqrt (by norm_num)
    have hval : (2:ℝ) / (Real.sqrt 2 / 512) = 512 * Real.sqrt 2 := by
      rw [div_div_eq_mul_div, div_eq_iff hne, mul_assoc, hsq]
      norm_num
    rw [hval, Int.ceil_eq_iff]
    constructor
    · push_cast
      linarith
    · push_cast
      linarith
  · rw [tAt_eq, hdt, hend]
    push_cast
    exact hfinal

/-- C8 counterexample: with an impulse of amplitude 1 at the interior
non-wall cell (2,2) of a 4x4 grid, an all-false mask, fac = 1/2 and a
zero output buffer, one stencil step writes -1 at (2,2) itself, a cell
that is not among its own 4-neighbors, so a cell other than the
4-neighbors changes value, refuting the claim as stated. -/
theorem impulseClaimCounterexample :
    ¬ (∀ i j : ℕ,
        ¬ ((i + 1 = 2 ∧ j = 2) ∨ (i = 2 + 1 ∧ j = 2) ∨
           (i = 2 ∧ j + 1 = 2) ∨ (i = 2 ∧ j = 2 + 1)) →
        updateLaplacian 4 (impulse 2 2 1) zeroF maskFree (1 / 2) i j =
          impulse 2 2 1 i j) := by
  intro h
  have h1 := h 2 2 (by omega)
  norm_num [updateLaplacian, impulse, zeroF, maskFree] at h1

/-- C8 amended: for an impulse of amplitude a != 0 at an interior
non-wall cell (i0, j0) of an otherwise zero current field, with a zero
output buffer and fac != 0, one updateLaplacian step changes the value
of the impulse cell itself; changes no cell other than the impulse cell
and its 4-neighbors; and leaves every cell at Manhattan distance two or
more from (i0, j0) exactly 0. -/
theorem impulseLocality (N : ℕ) (mask : Mask) (fac a : ℝ) (i0 j0 : ℕ)
    (hi1 : 1 ≤ i0) (hi2 : i0 < N - 1) (hj1 : 1 ≤ j0) (hj2 : j0 < N - 1)
    (hm : mask i0 j0 = false) (ha : a ≠ 0) (hf : fac ≠ 0) :
    updateLaplacian N (impulse i0 j0 a) zeroF mask fac i0 j0 ≠ impulse i0 j0 a i0 j0 ∧
    (∀ i j, ¬ (i = i0 ∧ j = j0) →
      ¬ ((i + 1 = i0 ∧ j = j0) ∨ (i = i0 + 1 ∧ j = j0) ∨
         (i = i0 ∧ j + 1 = j0) ∨ (i = i0 ∧ j = j0 + 1)) →
      updateLaplacian N (impulse i0 j0 a) zeroF mask fac i j = impulse i0 j0 a i j) ∧
    (∀ i j, 2 ≤ manhattan i j i0 j0 →
      updateLaplacian N (impulse i0 j0 a) zeroF mask fac i j = 0) := by
  refine ⟨?_, ?_, ?_⟩
  · unfold updateLaplacian
    rw [if_pos ⟨hi1, hi2, hj1, hj2, hm⟩]
    rw [impulse_off_center i0 j0 a (i0 - 1) j0 (by omega),
        impulse_off_center i0 j0 a (i0 + 1) j0 (by omega),
        impulse_off_center i0 j0 a i0 (j0 - 1) (by omega),
        impulse_off_center i0 j0 a i0 (j0 + 1) (by omega),
        impulse_center]
    intro heq
    have h0 : fac * (4 * a) = 0 := by linear_combination -heq
    exact mul_ne_zero hf (mul_ne_zero (by norm_num) ha) h0
  · intro i j hc hn
    unfold updateLaplacian
    split_ifs with hg
    · obtain ⟨g1, g2, g3, g4, g5⟩ := hg
      rw [impulse_off_center i0 j0 a i j hc,
          impulse_off_center i0 j0 a (i - 1) j (by omega),
          impulse_off_center i0 j0 a (i + 1) j (by omega),
          impulse_off_center i0 j0 a i (j - 1) (by omega),
          impulse_off_center i0 j0 a i (j + 1) (by omega)]
      ring
    · rw [impulse_off_center i0 j0 a i j hc]
      rfl
  · intro i j hd
    simp only [manhattan] at hd
    unfold updateLaplacian
    split_ifs with hg
    · obtain ⟨g1, g2, g3, g4, g5⟩ := hg
      rw [impulse_off_center i0 j0 a i j (by omega),
          impulse_off_center i0 j0 a (i - 1) j (by omega),
          impulse_off_center i0 j0 a (i + 1) j (by omega),
          impulse_off_center i0 j0 a i (j - 1) (by omega),
          impulse_off_center i0 j0 a i (j + 1) (by omega)]
      ring
    · rfl

/-- Witness for impulseLocality: N = 4, all-false mask, fac = 1/2,
amplitude 1 at (2,2); the cell (0,0) at Manhattan distance 4 evaluates
to 0 after the step. -/
theorem impulseLocality_witness :
    ((1:ℕ) ≤ 2 ∧ (2:ℕ) < 4 - 1 ∧ maskFree 2 2 = false ∧ (1:ℝ) ≠ 0 ∧ ((1:ℝ) / 2) ≠ 0 ∧
      2 ≤ manhattan 0 0 2 2) ∧
    updateLaplacian 4 (impulse 2 2 1) zeroF maskFree (1 / 2) 0 0 = 0 :=
  ⟨⟨by norm_num, by norm_num, rfl, by norm_num, by norm_num, by decide⟩,
   (impulseLocality 4 maskFree (1 / 2) 1 2 2 (by norm_num) (by norm_num) (by norm_num)
      (by norm_num) rfl (by norm_num) (by norm_num)).2.2 0 0 (by decide)⟩

end WaveSim
